import Mathlib

/-!
Verification of the budget_bot Telegram expense tracker (src/main.py) against
its natural-language specification.  The Python handlers are shallowly
embedded: the Mongo collections become lists of documents, each handler
becomes a pure function from a store (plus the caller's identity, message
arguments and the wall-clock time `datetime.utcnow()`) to a new store and a
reply.  Python float amounts are modelled as exact decimals `m * 10 ^ e`
(the program only parses decimal literals and adds/subtracts, so this is an
exact value model), with Python's special values inf, -inf and nan
represented explicitly.
-/

/-! ## Python float values -/

/-- A Python float as used by the bot: an exact decimal value `m * 10 ^ e`,
or one of the special values produced by `float("inf")` / `float("nan")`. -/
inductive PyFloat where
  | finite (m : ℤ) (e : ℤ)
  | inf
  | ninf
  | nan
deriving DecidableEq

/-- Negation of a Python float (`-x`). -/
def PyFloat.neg : PyFloat → PyFloat
  | .finite m e => .finite (-m) e
  | .inf => .ninf
  | .ninf => .inf
  | .nan => .nan

/-- Addition of Python floats; exact on finite decimals, with the usual
special-value propagation (`nan` absorbs, `inf + -inf = nan`). -/
def PyFloat.add : PyFloat → PyFloat → PyFloat
  | .nan, _ => .nan
  | _, .nan => .nan
  | .inf, .ninf => .nan
  | .ninf, .inf => .nan
  | .inf, _ => .inf
  | _, .inf => .inf
  | .ninf, _ => .ninf
  | _, .ninf => .ninf
  | .finite m1 e1, .finite m2 e2 =>
      let e := min e1 e2
      .finite (m1 * 10 ^ (e1 - e).toNat + m2 * 10 ^ (e2 - e).toNat) e

/-- Subtraction of Python floats. -/
def PyFloat.sub (a b : PyFloat) : PyFloat := a.add b.neg

/-- Sum of a list of amounts, as computed by the `+=` loop in `view` and by
Mongo's `$sum` accumulator in `balance` (starting value 0). -/
def sumAmounts (l : List PyFloat) : PyFloat := l.foldl PyFloat.add (.finite 0 0)

/-! ## Parsing Python `float(...)` -/

/-- Numeric value of a decimal digit character. -/
def digitVal (c : Char) : ℕ := c.toNat - '0'.toNat

/-- Value of a string of decimal digit characters (most significant first). -/
def digitsToNat (l : List Char) : ℕ := l.foldl (fun a c => a * 10 + digitVal c) 0

/-- Python `str.strip()`: remove leading and trailing whitespace. -/
def pyStrip (l : List Char) : List Char :=
  ((l.dropWhile Char.isWhitespace).reverse.dropWhile Char.isWhitespace).reverse

/-- The exponent suffix of a float literal: optional sign and a nonempty
digit string, as accepted after `e`/`E` by Python `float`. -/
def parseExp? : List Char → Option ℤ
  | [] => none
  | '+' :: ds =>
      if !ds.isEmpty && ds.all Char.isDigit then some (digitsToNat ds) else none
  | '-' :: ds =>
      if !ds.isEmpty && ds.all Char.isDigit then some (-(digitsToNat ds : ℤ)) else none
  | ds =>
      if ds.all Char.isDigit then some (digitsToNat ds) else none

/-- The decimal value `intpart.fracpart * 10 ^ ex`. -/
def decValue (ip fp : List Char) (ex : ℤ) : PyFloat :=
  .finite ((digitsToNat ip : ℤ) * 10 ^ fp.length + digitsToNat fp) (ex - fp.length)

/-- An unsigned decimal float literal: `digits`, `digits.digits`, `digits.`,
`.digits`, each optionally followed by an exponent part. -/
def parseDecCore? (l : List Char) : Option PyFloat :=
  let ip := l.takeWhile Char.isDigit
  let rest1 := l.drop ip.length
  match rest1 with
  | '.' :: r2 =>
      let fp := r2.takeWhile Char.isDigit
      let rest2 := r2.drop fp.length
      if ip.isEmpty && fp.isEmpty then none
      else
        match rest2 with
        | [] => some (decValue ip fp 0)
        | 'e' :: es => (parseExp? es).map (decValue ip fp)
        | 'E' :: es => (parseExp? es).map (decValue ip fp)
        | _ => none
  | [] => if ip.isEmpty then none else some (decValue ip [] 0)
  | 'e' :: es => if ip.isEmpty then none else (parseExp? es).map (decValue ip [])
  | 'E' :: es => if ip.isEmpty then none else (parseExp? es).map (decValue ip [])
  | _ => none

/-- An unsigned Python float string: the keywords `inf`/`infinity`/`nan`
(case-insensitive) or a decimal literal. -/
def parseUnsigned? (l : List Char) : Option PyFloat :=
  let low := l.map Char.toLower
  if low = "inf".toList || low = "infinity".toList then some .inf
  else if low = "nan".toList then some .nan
  else parseDecCore? l

/-- Python `float(s)`: strip whitespace, then an optional sign followed by an
unsigned float string.  Returns `none` exactly when Python raises
`ValueError`. -/
def parseFloat? (l : List Char) : Option PyFloat :=
  match pyStrip l with
  | '+' :: r => parseUnsigned? r
  | '-' :: r => (parseUnsigned? r).map PyFloat.neg
  | r => parseUnsigned? r

/-! ## Rendering numbers and `"%.2f"` formatting -/

/-- The character for a decimal digit. -/
def digitChar (d : ℕ) : Char := Char.ofNat (48 + d)

/-- Decimal digit characters of a natural number, with explicit fuel so that
the definition is structural (and hence kernel-computable). -/
def natCharsAux : ℕ → ℕ → List Char → List Char
  | 0, _, acc => acc
  | fuel + 1, n, acc =>
      let acc' := digitChar (n % 10) :: acc
      if n < 10 then acc' else natCharsAux fuel (n / 10) acc'

/-- Decimal rendering of a natural number (as Python `str`/`format` print it). -/
def natChars (n : ℕ) : List Char := natCharsAux (n + 1) n []

/-- Decimal rendering of a natural number as a `String`. -/
def renderNat (n : ℕ) : String := String.mk (natChars n)

/-- A number zero-padded on the left to the given width, as `strftime`
does for `%Y`, `%m` and `%d`. -/
def padNum (width n : ℕ) : List Char :=
  List.replicate (width - (natChars n).length) '0' ++ natChars n

/-- `⌊n / d⌋` rounded half-to-even, for `d > 0`: the integer Python's
`format(x, ".2f")` machinery produces for an exact value `n / d`. -/
def roundHalfEvenDiv (n : ℤ) (d : ℤ) : ℤ :=
  let q := Int.fdiv n d
  let r := n - d * q
  if 2 * r < d then q
  else if d < 2 * r then q + 1
  else if q % 2 = 0 then q else q + 1

/-- The integer `round(x * 100)` (half-to-even) of a finite decimal value. -/
def centsOf (m : ℤ) (e : ℤ) : ℤ :=
  if 0 ≤ e + 2 then m * 10 ^ (e + 2).toNat
  else roundHalfEvenDiv m (10 ^ (-(e + 2)).toNat)

/-- Python `f"{x:.2f}"`: two-decimal fixed-point formatting of a float. -/
def format2 : PyFloat → String
  | .inf => "inf"
  | .ninf => "-inf"
  | .nan => "nan"
  | .finite m e =>
      let n := centsOf m e
      let sign := if n < 0 then "-" else ""
      let a := n.natAbs
      sign ++ renderNat (a / 100) ++ "." ++ String.mk (padNum 2 (a % 100))

/-! ## Datetimes and month helpers -/

/-- A Python `datetime` as used by the bot (UTC, naive). -/
structure PyDateTime where
  year : ℕ
  month : ℕ
  day : ℕ
  hour : ℕ
  minute : ℕ
  second : ℕ
  microsecond : ℕ
deriving DecidableEq

/-- Order-preserving encoding of a (well-formed) datetime; Python compares
datetimes field-lexicographically, which this encoding realises. -/
def PyDateTime.key (d : PyDateTime) : ℕ :=
  (((((d.year * 13 + d.month) * 32 + d.day) * 24 + d.hour) * 60 + d.minute) * 60
      + d.second) * 1000000 + d.microsecond

/-- The Mongo timestamp filter `{"$gte": s, "$lt": e}` used by
`balance`, `view` and `export`. -/
def inRangeB (s e ts : PyDateTime) : Bool :=
  Nat.ble s.key ts.key && Nat.blt ts.key e.key

/-- `get_month_str`: `date.strftime("%Y-%m")`. -/
def get_month_str (d : PyDateTime) : String :=
  String.mk (padNum 4 d.year ++ '-' :: padNum 2 d.month)

/-- `calendar.monthrange(year, month)[1]`: the number of days in the month. -/
def monthrange (y m : ℕ) : ℕ :=
  if m = 2 then (if y % 4 = 0 ∧ (y % 100 ≠ 0 ∨ y % 400 = 0) then 29 else 28)
  else if m = 4 ∨ m = 6 ∨ m = 9 ∨ m = 11 then 30
  else 31

/-- Split a character list at every occurrence of the separator, like
Python `str.split(sep)` (so `"".split(sep) = [""]`). -/
def splitChar (c : Char) : List Char → List (List Char)
  | [] => [[]]
  | x :: xs =>
      if x == c then [] :: splitChar c xs
      else
        match splitChar c xs with
        | h :: t => (x :: h) :: t
        | [] => [[x]]

/-- Python `int(s)` restricted to the plain nonempty digit strings that the
validated month labels contain. -/
def parseIntList? (l : List Char) : Option ℕ :=
  if !l.isEmpty && l.all Char.isDigit then some (digitsToNat l) else none

/-- `get_month_range`: `year, month = map(int, month_str.split("-"))`, then
return `(datetime(y, m, 1), datetime(y, m, monthrange(y, m)[1]))` — the first
instant of the month and the first instant of its **last day** (despite the
docstring's "last datetime of the month").  `none` models the `ValueError`
Python would raise on an unsplittable string. -/
def get_month_range (month_str : String) : Option (PyDateTime × PyDateTime) :=
  match (splitChar '-' month_str.toList).map parseIntList? with
  | [some y, some m] =>
      some (⟨y, m, 1, 0, 0, 0, 0⟩, ⟨y, m, monthrange y m, 0, 0, 0, 0⟩)
  | _ => none

/-- Modelled from the spec: "the inclusive-start/exclusive-end timestamp
range for the month [first instant of month, first instant of next month)".
This is the range the specification describes for `/balance`, `/view` and
`/export`; compare with `get_month_range` above, which the code actually
uses. -/
def spec_month_range (y m : ℕ) : PyDateTime × PyDateTime :=
  (⟨y, m, 1, 0, 0, 0, 0⟩,
   if m = 12 then ⟨y + 1, 1, 1, 0, 0, 0, 0⟩ else ⟨y, m + 1, 1, 0, 0, 0, 0⟩)

/-- The `datetime(year, month, 1)` construction `strptime` performs after
its regular expression matched: it raises `ValueError` when the parsed year
is below `datetime.MINYEAR = 1` (four digits keep it within `MAXYEAR`, and
the month pattern already guarantees 1-12). -/
def mkYm (y m : ℕ) : Option (ℕ × ℕ) := if 1 ≤ y then some (y, m) else none

/-- `datetime.strptime(s, "%Y-%m")`: CPython compiles this format to the
regular expression `(?P<Y>\d\d\d\d)-(?P<m>1[0-2]|0[1-9]|[1-9])`, requires
the whole string to be consumed, and then constructs `datetime(year, month,
1)`, which rejects the all-zero year 0000.  Returns the parsed
(year, month) on success, `none` when Python raises `ValueError`. -/
def parseStrptimeYm? (l : List Char) : Option (ℕ × ℕ) :=
  match l with
  | y1 :: y2 :: y3 :: y4 :: '-' :: ms =>
      if y1.isDigit && y2.isDigit && y3.isDigit && y4.isDigit then
        let y := digitsToNat [y1, y2, y3, y4]
        match ms with
        | [m1] =>
            if m1.isDigit && !(m1 == '0') then mkYm y (digitVal m1) else none
        | [m1, m2] =>
            if m1 == '1' && (m2 == '0' || m2 == '1' || m2 == '2') then
              mkYm y (10 + digitVal m2)
            else if m1 == '0' && m2.isDigit && !(m2 == '0') then
              mkYm y (digitVal m2)
            else none
        | _ => none
      else none
  | _ => none

/-- Modelled from the spec: an argument "matching the \"YYYY-MM\" pattern
with a valid month (01-12)" — four year digits, a dash, and a two-digit
month between 01 and 12. -/
def matchesYYYYMM (s : String) : Bool :=
  match s.toList with
  | [y1, y2, y3, y4, '-', m1, m2] =>
      y1.isDigit && y2.isDigit && y3.isDigit && y4.isDigit &&
        ((m1 == '0' && m2.isDigit && !(m2 == '0')) ||
         (m1 == '1' && (m2 == '0' || m2 == '1' || m2 == '2')))
  | _ => false

/-! ## Documents and the store -/

/-- A document in the `budgets` collection, as built by `set_budget`. -/
structure BudgetDoc where
  uid : ℕ
  username : String
  month : String
  budget : PyFloat
  created_at : PyDateTime
deriving DecidableEq

/-- A document in the `expenses` collection, as built by `add_expense`. -/
structure ExpenseDoc where
  uid : ℕ
  username : String
  amount : PyFloat
  name : String
  category : String
  timestamp : PyDateTime
deriving DecidableEq

/-- The summary pushed onto the user's denormalized `expenses` array by
`add_expense`. -/
structure ExpenseEntry where
  amount : PyFloat
  name : String
  category : String
  timestamp : PyDateTime
deriving DecidableEq

/-- A document in the `users` collection.  `budget = none` models the empty
placeholder `{}` written by `start`. -/
structure UserDoc where
  uid : ℕ
  username : String
  budget : Option BudgetDoc
  expenses : List ExpenseEntry
deriving DecidableEq

/-- Projection of an expense document to the denormalized summary. -/
def ExpenseDoc.toEntry (x : ExpenseDoc) : ExpenseEntry :=
  ⟨x.amount, x.name, x.category, x.timestamp⟩

/-- The three Mongo collections, in insertion order. -/
structure Store where
  users : List UserDoc
  budgets : List BudgetDoc
  expenses : List ExpenseDoc
deriving DecidableEq

/-- The store before any command has run. -/
def emptyStore : Store := ⟨[], [], []⟩

/-- Mongo `update_one` without upsert: rewrite the first matching document,
leave everything else (including a store with no match) unchanged. -/
def updateFirst (p : α → Bool) (f : α → α) : List α → List α
  | [] => []
  | x :: xs => if p x then f x :: xs else x :: updateFirst p f xs

/-- Mongo `update_one(filter, {"$set": doc}, upsert=True)` where `doc`
assigns every field: replace the first matching document by `d`, or append
`d` when nothing matches. -/
def updateOneUpsert (p : α → Bool) (d : α) (l : List α) : List α :=
  if l.any p then updateFirst p (fun _ => d) l else l ++ [d]

/-- `users.find_one({"uid": uid})`. -/
def findUser (st : Store) (uid : ℕ) : Option UserDoc :=
  st.users.find? (fun r => r.uid == uid)

/-- The display name: `update.effective_user.username or f"user_{user_id}"`. -/
def displayName (uid : ℕ) (uname : Option String) : String :=
  uname.getD ("user_" ++ renderNat uid)

/-! ## Command handlers -/

/-- The command summary appended to both `start` replies. -/
def commandsMsg : String :=
  "Commands:\n/setbudget <amount>\n/add <amount> <name> <category>\n/balance\n/view <YYYY-MM>\n/export <YYYY-MM>\n/help\n"

/-- `/start`: create the user document (with empty budget placeholder and
empty expense list) when the caller is unseen, else only greet. -/
def start (st : Store) (uid : ℕ) (uname : Option String) : Store × String :=
  let username := displayName uid uname
  match findUser st uid with
  | none =>
      ({ st with users := st.users ++ [⟨uid, username, none, []⟩] },
       "👋 Welcome, " ++ username ++ "! Your account has been created.\n\n" ++ commandsMsg)
  | some _ => (st, "👋 Welcome back, " ++ username ++ "!\n\n" ++ commandsMsg)

/-- The budget document `set_budget` writes for a parsed amount. -/
def mkBudgetDoc (uid : ℕ) (uname : Option String) (amount : PyFloat)
    (now : PyDateTime) : BudgetDoc :=
  ⟨uid, displayName uid uname, get_month_str now, amount, now⟩

/-- The Mongo filter `{"uid": uid, "month": month}` on budget documents. -/
def budgetKey (uid : ℕ) (month : String) (b : BudgetDoc) : Bool :=
  b.uid == uid && b.month == month

/-- The outcome of `amount = float(context.args[0])` in `set_budget`: the
budget document to write, or `none` when `IndexError`/`ValueError` is
caught. -/
def opBudgetDoc? (uid : ℕ) (uname : Option String) (args : List String)
    (now : PyDateTime) : Option BudgetDoc :=
  match args with
  | [] => none
  | a :: _ => (parseFloat? a.toList).map (fun amount => mkBudgetDoc uid uname amount now)

/-- `/setbudget <amount>`: parse `context.args[0]` as a float (usage hint on
`IndexError`/`ValueError`), upsert the budget for (uid, current month), then
overwrite the user's denormalized budget snapshot. -/
def set_budget (st : Store) (uid : ℕ) (uname : Option String)
    (args : List String) (now : PyDateTime) : Store × String :=
  match opBudgetDoc? uid uname args now with
  | none => (st, "Usage: /setbudget <amount>")
  | some budget_doc =>
      let month := get_month_str now
      ({ st with
          budgets := updateOneUpsert (budgetKey uid month) budget_doc st.budgets,
          users := updateFirst (fun r => r.uid == uid)
            (fun r => { r with budget := some budget_doc }) st.users },
       "✅ Budget for " ++ month ++ " set to " ++ format2 budget_doc.budget)

/-- Python `text.split(",", 2)`: split at the first two commas only. -/
def pySplit2 (l : List Char) : List (List Char) :=
  match splitChar ',' l with
  | p0 :: p1 :: p2 :: rest => [p0, p1, List.intercalate [','] (p2 :: rest)]
  | ps => ps

/-- The usage reply of `/add`. -/
def addUsageMsg : String :=
  "Usage: /add <amount>, <name>, <category>\nExample: /add 12.50, Lunch at, Food"

/-- The outcome of the `try` block of `add_expense`: the expense document to
insert (text after `"/add"` stripped, split at the first two commas, the
three parts stripped, the first parsed as a float), or `none` when the
`except` branch is taken. -/
def opExpenseDoc? (uid : ℕ) (uname : Option String) (msg : String)
    (now : PyDateTime) : Option ExpenseDoc :=
  match (pySplit2 (pyStrip (msg.toList.drop 4))).map pyStrip with
  | [amount_str, name, category] =>
      (parseFloat? amount_str).map (fun amount =>
        ⟨uid, displayName uid uname, amount, String.mk name, String.mk category, now⟩)
  | _ => none

/-- `/add`: on parse failure reply with the usage hint and write nothing,
otherwise insert an expense document and push its summary onto the user's
denormalized list. -/
def add_expense (st : Store) (uid : ℕ) (uname : Option String)
    (msg : String) (now : PyDateTime) : Store × String :=
  match opExpenseDoc? uid uname msg now with
  | none => (st, addUsageMsg)
  | some expense_doc =>
      ({ st with
          expenses := st.expenses ++ [expense_doc],
          users := updateFirst (fun r => r.uid == uid)
            (fun r => { r with expenses := r.expenses ++ [expense_doc.toEntry] })
            st.users },
       "Successfully added expense! \nAmount: " ++ format2 expense_doc.amount ++
         "\nName: " ++ expense_doc.name ++ "\nCategory: " ++ expense_doc.category)

/-- The documents `expenses.find({"uid": uid, "timestamp": {"$gte": s, "$lt": e}})`
returns, in store order. -/
def expensesInRange (st : Store) (uid : ℕ) (s e : PyDateTime) : List ExpenseDoc :=
  st.expenses.filter (fun x => x.uid == uid && inRangeB s e x.timestamp)

/-- The `$group`/`$sum` stage of the `balance` aggregation: one result
document when anything matched, no result documents otherwise. -/
def aggregateTotals (l : List PyFloat) : List PyFloat :=
  if l.isEmpty then [] else [sumAmounts l]

/-- `/balance`: look up the budget for (uid, current month); if present,
aggregate the month's expense total (the `for` loop leaves `expense_total`
at 0 when the aggregation yields no rows) and report budget, spent and
budget - spent, each `.2f`-formatted. -/
def balance (st : Store) (uid : ℕ) (now : PyDateTime) : String :=
  let month := get_month_str now
  match st.budgets.find? (budgetKey uid month) with
  | none => "⚠️ No budget set for this month."
  | some budget_doc =>
      match get_month_range month with
      | none => ""
      | some (s, e) =>
          let totals := aggregateTotals ((expensesInRange st uid s e).map (·.amount))
          let expense_total := totals.foldl (fun _ r => r) (.finite 0 0)
          "Balance Summary for the month:\n\n💰 Budget: " ++ format2 budget_doc.budget ++
            "\n📉 Spent: " ++ format2 expense_total ++
            "\n✅ Balance: " ++ format2 (budget_doc.budget.sub expense_total)

/-- `exp["timestamp"].strftime("%Y-%m-%d")`. -/
def strftimeYmd (d : PyDateTime) : String :=
  String.mk (padNum 4 d.year ++ '-' :: (padNum 2 d.month ++ '-' :: padNum 2 d.day))

/-- One `- {ts}: {amt:.2f} [{name}] ({cat})` line of the `/view` listing. -/
def viewLine (x : ExpenseDoc) : String :=
  "- " ++ strftimeYmd x.timestamp ++ ": " ++ format2 x.amount ++
    " [" ++ x.name ++ "] (" ++ x.category ++ ")\n"

/-- The result of a `/view` invocation: the reply text plus whether the
handler reached the `expenses.find` store query. -/
structure ViewOut where
  queried : Bool
  reply : String
deriving DecidableEq

/-- `/view <YYYY-MM>`: validate the month with `strptime` (usage hint and no
query on failure), then list the month's expenses with a running total, or
report that none were found.  The `get_month_range` failure branch is
unreachable: `strptime` success implies the month string splits (see
`get_month_range_of_strptime`). -/
def view (st : Store) (uid : ℕ) (args : List String) : ViewOut :=
  match args with
  | [] => ⟨false, "Usage: /view <YYYY-MM>"⟩
  | month :: _ =>
      match parseStrptimeYm? month.toList with
      | none => ⟨false, "Usage: /view <YYYY-MM>"⟩
      | some _ =>
          match get_month_range month with
          | none => ⟨true, ""⟩
          | some (s, e) =>
              let exp_list := expensesInRange st uid s e
              if exp_list.isEmpty then ⟨true, "No expenses found for " ++ month ++ "."⟩
              else
                ⟨true,
                  "📒 Expenses for " ++ month ++ ":\n\n" ++
                    String.join (exp_list.map viewLine) ++
                    "\nTotal: " ++ format2 (sumAmounts (exp_list.map (·.amount)))⟩

/-! ## The export handler -/

/-- A value in a fetched Mongo document. -/
inductive BsonValue where
  | nat (n : ℕ)
  | str (s : String)
  | num (x : PyFloat)
  | date (d : PyDateTime)
  | oid (n : ℕ)
deriving DecidableEq

/-- An expense document as `expenses.find` returns it: all stored fields
plus the store's internal `_id` identifier. -/
def expenseBson (i : ℕ) (x : ExpenseDoc) : List (String × BsonValue) :=
  [("_id", .oid i), ("uid", .nat x.uid), ("username", .str x.username),
   ("amount", .num x.amount), ("name", .str x.name),
   ("category", .str x.category), ("timestamp", .date x.timestamp)]

/-- `pd.DataFrame(exp_list)` followed by `df.drop(columns=["_id"])`: one row
per fetched document, keeping every column except `_id`. -/
def exportTable (docs : List (List (String × BsonValue))) :
    List (List (String × BsonValue)) :=
  docs.map (fun doc => doc.filter (fun kv => kv.1 != "_id"))

/-- How a `/export` invocation ended. -/
inductive ExportReply where
  | usage
  | noExpenses (month : String)
  | document (filename : String)
  | sendFailed
deriving DecidableEq

/-- The observable outcome of a `/export` invocation: whether the store was
queried, the rows written to the CSV (when one was produced), the files on
disk afterwards, and the reply. -/
structure ExportOut where
  queried : Bool
  table : Option (List (List (String × BsonValue)))
  files : List String
  reply : ExportReply
deriving DecidableEq

/-- `/export <YYYY-MM>`: same validation and query as `/view`; on a
non-empty result, drop the `_id` column, write the CSV
(`filename :: fs` models `df.to_csv`), send it, and remove the file.
`sendOk` is whether `reply_document` succeeds; when it raises, the handler
propagates the exception **before** reaching `os.remove`, so the file stays
on disk. -/
def exportCmd (st : Store) (uid : ℕ) (args : List String)
    (fs : List String) (sendOk : Bool) : ExportOut :=
  match args with
  | [] => ⟨false, none, fs, .usage⟩
  | month :: _ =>
      match parseStrptimeYm? month.toList with
      | none => ⟨false, none, fs, .usage⟩
      | some _ =>
          match get_month_range month with
          | none => ⟨true, none, fs, .usage⟩
          | some (s, e) =>
              let exp_list := expensesInRange st uid s e
              if exp_list.isEmpty then ⟨true, none, fs, .noExpenses month⟩
              else
                let table := exportTable (exp_list.enum.map (fun p => expenseBson p.1 p.2))
                let filename := "expenses_" ++ renderNat uid ++ "_" ++ month ++ ".csv"
                let fs1 := filename :: fs
                if sendOk then ⟨true, some table, fs1.erase filename, .document filename⟩
                else ⟨true, some table, fs1, .sendFailed⟩

/-! ## Command traces -/

/-- A state-changing command invocation (the reporting commands `balance`,
`view` and `export` never write to the store). -/
inductive Op where
  | start (uid : ℕ) (uname : Option String)
  | setbudget (uid : ℕ) (uname : Option String) (args : List String) (now : PyDateTime)
  | add (uid : ℕ) (uname : Option String) (msg : String) (now : PyDateTime)
deriving DecidableEq

/-- The store after one command invocation. -/
def stepOp (st : Store) : Op → Store
  | .start u un => (start st u un).1
  | .setbudget u un args now => (set_budget st u un args now).1
  | .add u un msg now => (add_expense st u un msg now).1

/-- The store after a sequence of command invocations. -/
def runOps : Store → List Op → Store := List.foldl stepOp

/-- Whether the trace contains a `/start` by the given user. -/
def hasStart (ops : List Op) (u : ℕ) : Bool :=
  ops.any fun op =>
    match op with
    | .start v _ => v == u
    | _ => false

/-- `goodFrom pre rest`: every `/setbudget` or `/add` in `rest` is by a user
who already ran `/start` (in `pre` or earlier in `rest`). -/
def goodFrom : List Op → List Op → Prop
  | _, [] => True
  | pre, op :: rest =>
      (match op with
       | .start _ _ => True
       | .setbudget u _ _ _ => hasStart pre u = true
       | .add u _ _ _ => hasStart pre u = true) ∧ goodFrom (pre ++ [op]) rest

/-- A trace in which every user's `/start` precedes all of their
`/setbudget` and `/add` invocations. -/
def goodTrace (ops : List Op) : Prop := goodFrom [] ops

/-- The most recently written budget document for a user over a trace: the
document constructed by the user's last successful `/setbudget`. -/
def lastSetBudget (u : ℕ) (ops : List Op) : Option BudgetDoc :=
  ops.foldl (fun acc op =>
    match op with
    | .setbudget v un args now =>
        if v = u then
          match opBudgetDoc? v un args now with
          | some d => some d
          | none => acc
        else acc
    | _ => acc) none

/-! ## Basic lemmas about the text helpers -/

theorem splitChar_ne_nil (c : Char) (l : List Char) : splitChar c l ≠ [] := by
  induction l with
  | nil => simp [splitChar]
  | cons x xs ih =>
      simp only [splitChar]
      by_cases h : x == c
      · simp [h]
      · simp only [h]
        cases hx : splitChar c xs with
        | nil => simp
        | cons a t => simp

theorem splitChar_length (c : Char) (l : List Char) :
    (splitChar c l).length = l.count c + 1 := by
  induction l with
  | nil => simp [splitChar]
  | cons x xs ih =>
      simp only [splitChar, List.count_cons]
      by_cases h : x == c
      · simp [h, ih]
      · simp only [h, if_false]
        cases hx : splitChar c xs with
        | nil => exact absurd hx (splitChar_ne_nil c xs)
        | cons a t =>
            rw [hx] at ih
            simp only [List.length_cons] at ih ⊢
            simp [ih, h]

theorem splitChar_no_sep (c : Char) (l : List Char) (h : ∀ x ∈ l, ¬ x = c) :
    splitChar c l = [l] := by
  induction l with
  | nil => simp [splitChar]
  | cons x xs ih =>
      have hx : (x == c) = false := by
        simp only [beq_eq_false_iff_ne, ne_eq]
        exact h x (by simp)
      have ihx := ih (fun y hy => h y (by simp [hy]))
      simp [splitChar, hx, ihx]

theorem splitChar_sep (c : Char) (a b : List Char)
    (ha : ∀ x ∈ a, ¬ x = c) (hb : ∀ x ∈ b, ¬ x = c) :
    splitChar c (a ++ c :: b) = [a, b] := by
  induction a with
  | nil => simp [splitChar, splitChar_no_sep c b hb]
  | cons x xs ih =>
      have hx : (x == c) = false := by
        simp only [beq_eq_false_iff_ne, ne_eq]
        exact ha x (by simp)
      have ihx := ih (fun y hy => ha y (by simp [hy]))
      simp [splitChar, hx, ihx]

theorem isDigit_digitChar (d : ℕ) (h : d < 10) : (digitChar d).isDigit = true := by
  interval_cases d <;> decide

theorem natCharsAux_ne_nil (fuel n : ℕ) (acc : List Char) (h : acc ≠ [] ∨ 0 < fuel) :
    natCharsAux fuel n acc ≠ [] := by
  induction fuel generalizing n acc with
  | zero =>
      rcases h with h | h
      · simpa [natCharsAux] using h
      · omega
  | succ fuel ih =>
      simp only [natCharsAux]
      by_cases hn : n < 10
      · simp [hn]
      · simp only [hn, if_false]
        exact ih (n / 10) _ (Or.inl (by simp))

theorem natChars_ne_nil (n : ℕ) : natChars n ≠ [] :=
  natCharsAux_ne_nil (n + 1) n [] (Or.inr (by omega))

theorem natCharsAux_digits (fuel n : ℕ) (acc : List Char)
    (h : ∀ ch ∈ acc, ch.isDigit = true) :
    ∀ ch ∈ natCharsAux fuel n acc, ch.isDigit = true := by
  induction fuel generalizing n acc with
  | zero => simpa [natCharsAux] using h
  | succ fuel ih =>
      have hd : ∀ ch ∈ digitChar (n % 10) :: acc, ch.isDigit = true := by
        intro ch hch
        rcases List.mem_cons.1 hch with rfl | hch
        · exact isDigit_digitChar _ (Nat.mod_lt _ (by omega))
        · exact h ch hch
      simp only [natCharsAux]
      by_cases hn : n < 10
      · simpa [hn] using hd
      · simp only [hn, if_false]
        exact ih (n / 10) _ hd

theorem natChars_digits (n : ℕ) : ∀ ch ∈ natChars n, ch.isDigit = true :=
  natCharsAux_digits (n + 1) n [] (by simp)

theorem padNum_digits (w n : ℕ) : ∀ ch ∈ padNum w n, ch.isDigit = true := by
  intro ch hch
  rcases List.mem_append.1 hch with hch | hch
  · rw [List.eq_of_mem_replicate hch]; decide
  · exact natChars_digits n ch hch

theorem padNum_ne_nil (w n : ℕ) : padNum w n ≠ [] := by
  intro h
  rcases List.append_eq_nil.1 h with ⟨-, h2⟩
  exact natChars_ne_nil n h2

theorem ne_dash_of_isDigit (c : Char) (h : c.isDigit = true) : ¬ c = '-' := by
  intro rfl_h
  subst rfl_h
  exact absurd h (by decide)

theorem parseIntList?_digits (l : List Char) (hne : l ≠ [])
    (hd : ∀ ch ∈ l, ch.isDigit = true) : parseIntList? l = some (digitsToNat l) := by
  have h1 : (!l.isEmpty && l.all Char.isDigit) = true := by
    simp only [Bool.and_eq_true, Bool.not_eq_true', List.all_eq_true]
    exact ⟨by simp [List.isEmpty_iff, hne], hd⟩
  simp [parseIntList?, h1]

/-- `get_month_range` never fails on a month label produced by
`get_month_str`. -/
theorem get_month_range_month_str (d : PyDateTime) :
    ∃ s e, get_month_range (get_month_str d) = some (s, e) := by
  have htl : (get_month_str d).toList = padNum 4 d.year ++ '-' :: padNum 2 d.month := rfl
  have hs : splitChar '-' ((get_month_str d).toList) = [padNum 4 d.year, padNum 2 d.month] := by
    rw [htl]
    exact splitChar_sep '-' _ _
      (fun x hx => ne_dash_of_isDigit x (padNum_digits 4 d.year x hx))
      (fun x hx => ne_dash_of_isDigit x (padNum_digits 2 d.month x hx))
  refine ⟨⟨digitsToNat (padNum 4 d.year), digitsToNat (padNum 2 d.month), 1, 0, 0, 0, 0⟩,
    ⟨digitsToNat (padNum 4 d.year), digitsToNat (padNum 2 d.month),
      monthrange (digitsToNat (padNum 4 d.year)) (digitsToNat (padNum 2 d.month)),
      0, 0, 0, 0⟩, ?_⟩
  have hs2 : splitChar '-' (get_month_str d).data = [padNum 4 d.year, padNum 2 d.month] := hs
  simp [get_month_range, hs2,
    parseIntList?_digits _ (padNum_ne_nil 4 d.year) (padNum_digits 4 d.year),
    parseIntList?_digits _ (padNum_ne_nil 2 d.month) (padNum_digits 2 d.month)]

/-! ## Lemmas about the store primitives -/

/-- The (user, month) key of a budget document. -/
def keyOfB (b : BudgetDoc) : ℕ × String := (b.uid, b.month)

/-- At most one budget document per (user, month): the invariant the claim
about `/setbudget` upserts asserts. -/
def budgetUnique (l : List BudgetDoc) : Prop :=
  l.Pairwise (fun a b => keyOfB a ≠ keyOfB b)

theorem budgetKey_eq_true_iff (u : ℕ) (mo : String) (b : BudgetDoc) :
    budgetKey u mo b = true ↔ keyOfB b = (u, mo) := by
  simp [budgetKey, keyOfB, Prod.ext_iff]

theorem filter_key_len_le_one (u : ℕ) (mo : String) (l : List BudgetDoc)
    (h : budgetUnique l) : (l.filter (budgetKey u mo)).length ≤ 1 := by
  induction l with
  | nil => simp
  | cons x xs ih =>
      rcases List.pairwise_cons.1 h with ⟨hx, hxs⟩
      by_cases hk : budgetKey u mo x = true
      · have hnil : xs.filter (budgetKey u mo) = [] := by
          rw [List.filter_eq_nil_iff]
          intro b hb hkb
          exact hx b hb (by
            rw [(budgetKey_eq_true_iff u mo x).1 hk, (budgetKey_eq_true_iff u mo b).1 hkb])
        simp [List.filter_cons_of_pos, hk, hnil]
      · rw [List.filter_cons_of_neg (by simp [hk])]
        exact ih hxs

theorem mem_updateFirst_const (p : α → Bool) (d : α) (l : List α) (x : α)
    (hx : x ∈ updateFirst p (fun _ => d) l) : x ∈ l ∨ x = d := by
  induction l with
  | nil => simp [updateFirst] at hx
  | cons a as ih =>
      by_cases hk : p a = true
      · rw [updateFirst, if_pos hk] at hx
        rcases List.mem_cons.1 hx with h | h
        · exact Or.inr h
        · exact Or.inl (List.mem_cons_of_mem a h)
      · rw [updateFirst, if_neg hk] at hx
        rcases List.mem_cons.1 hx with h | h
        · exact Or.inl (h ▸ List.mem_cons_self a as)
        · rcases ih h with h1 | h1
          · exact Or.inl (List.mem_cons_of_mem a h1)
          · exact Or.inr h1

theorem budgetUnique_updateFirst (u : ℕ) (mo : String) (d : BudgetDoc)
    (l : List BudgetDoc) (hd : keyOfB d = (u, mo)) (h : budgetUnique l) :
    budgetUnique (updateFirst (budgetKey u mo) (fun _ => d) l) := by
  induction l with
  | nil => simpa [updateFirst] using h
  | cons x xs ih =>
      rcases List.pairwise_cons.1 h with ⟨hx, hxs⟩
      by_cases hk : budgetKey u mo x = true
      · simp only [updateFirst, hk, if_true]
        refine List.pairwise_cons.2 ⟨?_, hxs⟩
        intro b hb
        rw [hd, ← (budgetKey_eq_true_iff u mo x).1 hk]
        exact hx b hb
      · simp only [updateFirst, hk, if_false]
        refine List.pairwise_cons.2 ⟨?_, ih hxs⟩
        intro b hb
        rcases mem_updateFirst_const _ _ _ _ hb with h1 | rfl
        · exact hx b h1
        · rw [hd]
          intro he
          exact hk ((budgetKey_eq_true_iff u mo x).2 he)

theorem budgetUnique_upsert (u : ℕ) (mo : String) (d : BudgetDoc)
    (l : List BudgetDoc) (hd : keyOfB d = (u, mo)) (h : budgetUnique l) :
    budgetUnique (updateOneUpsert (budgetKey u mo) d l) := by
  unfold updateOneUpsert
  by_cases hany : l.any (budgetKey u mo) = true
  · simpa [hany] using budgetUnique_updateFirst u mo d l hd h
  · have hgoal : budgetUnique (l ++ [d]) := by
      unfold budgetUnique
      rw [List.pairwise_append]
      refine ⟨h, List.pairwise_singleton _ _, ?_⟩
      intro a ha b hb
      rw [List.mem_singleton.1 hb, hd]
      intro he
      rw [List.any_eq_true] at hany
      exact hany ⟨a, ha, (budgetKey_eq_true_iff u mo a).2 he⟩
    simpa [hany] using hgoal

theorem filter_updateOneUpsert (p : BudgetDoc → Bool) (d : BudgetDoc)
    (l : List BudgetDoc) (hd : p d = true) (h : (l.filter p).length ≤ 1) :
    (updateOneUpsert p d l).filter p = [d] := by
  induction l with
  | nil => simp [updateOneUpsert, updateFirst, hd]
  | cons x xs ih =>
      by_cases hk : p x = true
      · have hany : (x :: xs).any p = true := by simp [hk]
        have hxs : xs.filter p = [] := by
          rw [List.filter_cons_of_pos hk] at h
          simp only [List.length_cons] at h
          exact List.eq_nil_of_length_eq_zero (by omega)
        rw [updateOneUpsert, if_pos hany, updateFirst, if_pos hk,
          List.filter_cons_of_pos hd, hxs]
      · have hk' : p x = false := by simpa using hk
        rw [List.filter_cons_of_neg (by simp [hk'])] at h
        by_cases hany : xs.any p = true
        · have h1 : (x :: xs).any p = true := by simp [hany]
          have hrec := ih h
          rw [show updateOneUpsert p d xs = updateFirst p (fun _ => d) xs by
                rw [updateOneUpsert, if_pos hany]] at hrec
          rw [updateOneUpsert, if_pos h1, updateFirst, if_neg hk,
            List.filter_cons_of_neg (by simp [hk'])]
          exact hrec
        · have h1 : (x :: xs).any p = false := by
            simp only [List.any_cons, Bool.or_eq_false_iff]
            exact ⟨hk', by simpa using hany⟩
          have hnil : (x :: xs).filter p = [] := by
            rw [List.filter_eq_nil_iff]
            intro a ha hpa
            have hcontra : (x :: xs).any p = true := List.any_eq_true.2 ⟨a, ha, hpa⟩
            rw [h1] at hcontra
            exact Bool.false_ne_true hcontra
          rw [updateOneUpsert, if_neg (by simp [h1]),
            List.filter_append, hnil, List.filter_cons_of_pos hd]
          simp

/-- At most one user document per uid. -/
def usersUnique (l : List UserDoc) : Prop := l.Pairwise (fun a b => a.uid ≠ b.uid)

theorem map_id_of_no_match (u : ℕ) (f : UserDoc → UserDoc) (l : List UserDoc)
    (h : ∀ r ∈ l, ¬ r.uid = u) :
    l.map (fun r => if r.uid = u then f r else r) = l := by
  induction l with
  | nil => simp
  | cons x xs ih =>
      have hx : ¬ x.uid = u := h x (by simp)
      rw [List.map_cons, if_neg hx, ih (fun r hr => h r (by simp [hr]))]

theorem updateFirst_users_eq_map (u : ℕ) (f : UserDoc → UserDoc) (l : List UserDoc)
    (h : usersUnique l) :
    updateFirst (fun r => r.uid == u) f l =
      l.map (fun r => if r.uid = u then f r else r) := by
  induction l with
  | nil => simp [updateFirst]
  | cons x xs ih =>
      rcases List.pairwise_cons.1 h with ⟨hx, hxs⟩
      by_cases hk : x.uid = u
      · have hnm : ∀ r ∈ xs, ¬ r.uid = u := by
          intro r hr he
          exact hx r hr (hk.trans he.symm)
        simp only [updateFirst, beq_iff_eq, hk, if_true, List.map_cons, if_pos hk]
        rw [map_id_of_no_match u f xs hnm]
      · simp only [updateFirst, beq_iff_eq, hk, if_false, List.map_cons, if_neg hk]
        rw [ih hxs]

/-! ## Trace bookkeeping lemmas -/

theorem hasStart_snoc_start (pre : List Op) (v : ℕ) (un : Option String) (u : ℕ) :
    hasStart (pre ++ [.start v un]) u = (hasStart pre u || (v == u)) := by
  simp [hasStart, List.any_append]

theorem hasStart_snoc_setbudget (pre : List Op) (v : ℕ) (un : Option String)
    (args : List String) (now : PyDateTime) (u : ℕ) :
    hasStart (pre ++ [.setbudget v un args now]) u = hasStart pre u := by
  simp [hasStart, List.any_append]

theorem hasStart_snoc_add (pre : List Op) (v : ℕ) (un : Option String)
    (msg : String) (now : PyDateTime) (u : ℕ) :
    hasStart (pre ++ [.add v un msg now]) u = hasStart pre u := by
  simp [hasStart, List.any_append]

theorem lastSetBudget_snoc_start (u : ℕ) (pre : List Op) (v : ℕ) (un : Option String) :
    lastSetBudget u (pre ++ [.start v un]) = lastSetBudget u pre := by
  unfold lastSetBudget
  rw [List.foldl_append]
  rfl

theorem lastSetBudget_snoc_add (u : ℕ) (pre : List Op) (v : ℕ) (un : Option String)
    (msg : String) (now : PyDateTime) :
    lastSetBudget u (pre ++ [.add v un msg now]) = lastSetBudget u pre := by
  unfold lastSetBudget
  rw [List.foldl_append]
  rfl

theorem lastSetBudget_snoc_setbudget (u : ℕ) (pre : List Op) (v : ℕ)
    (un : Option String) (args : List String) (now : PyDateTime) :
    lastSetBudget u (pre ++ [.setbudget v un args now]) =
      if v = u then
        match opBudgetDoc? v un args now with
        | some d => some d
        | none => lastSetBudget u pre
      else lastSetBudget u pre := by
  unfold lastSetBudget
  rw [List.foldl_append]
  rfl

theorem opBudgetDoc?_eq (u : ℕ) (un : Option String) (args : List String)
    (now : PyDateTime) (d : BudgetDoc) (h : opBudgetDoc? u un args now = some d) :
    ∃ v, d = mkBudgetDoc u un v now := by
  unfold opBudgetDoc? at h
  split at h
  · exact absurd h (by simp)
  · rcases Option.map_eq_some'.1 h with ⟨v, -, hv⟩
    exact ⟨v, hv.symm⟩

theorem opExpenseDoc?_shape (u : ℕ) (un : Option String) (msg : String)
    (now : PyDateTime) (d : ExpenseDoc) (h : opExpenseDoc? u un msg now = some d) :
    d.uid = u ∧ d.timestamp = now := by
  unfold opExpenseDoc? at h
  split at h
  · rcases Option.map_eq_some'.1 h with ⟨v, -, hv⟩
    subst hv
    exact ⟨rfl, rfl⟩
  · exact absurd h (by simp)

theorem usersUnique_map (l : List UserDoc) (g : UserDoc → UserDoc)
    (hg : ∀ r, (g r).uid = r.uid) (h : usersUnique l) : usersUnique (l.map g) := by
  unfold usersUnique at h ⊢
  rw [List.pairwise_map]
  exact h.imp (fun {a b} hab => by rw [hg a, hg b]; exact hab)

theorem find?_isSome_map_uid (l : List UserDoc) (g : UserDoc → UserDoc)
    (hg : ∀ r, (g r).uid = r.uid) (u : ℕ) :
    ((l.map g).find? (fun r => r.uid == u)).isSome =
      (l.find? (fun r => r.uid == u)).isSome := by
  rw [List.find?_map]
  have hp : ((fun r : UserDoc => r.uid == u) ∘ g) = (fun r : UserDoc => r.uid == u) := by
    funext r
    simp [Function.comp, hg r]
  rw [hp]
  cases List.find? (fun r => r.uid == u) l <;> rfl

/-! ## The denormalization invariant -/

/-- The denormalization invariant tying a store to the trace `pre` that
produced it: user documents are unique per uid and exist exactly for users
who ran `/start`; each user document's budget snapshot equals the most
recently written budget document for that user and its expense array
mirrors the expense log entries for that user; users who never ran `/start`
have no expense log entries and no budget writes. -/
def mirrorInv (st : Store) (pre : List Op) : Prop :=
  usersUnique st.users ∧
  (∀ u, (findUser st u).isSome = hasStart pre u) ∧
  (∀ r ∈ st.users, r.budget = lastSetBudget r.uid pre ∧
      r.expenses = (st.expenses.filter (fun x => x.uid == r.uid)).map ExpenseDoc.toEntry) ∧
  (∀ u, hasStart pre u = false → st.expenses.filter (fun x => x.uid == u) = []) ∧
  (∀ u, hasStart pre u = false → lastSetBudget u pre = none)


theorem mirrorInv_step_start (st : Store) (pre : List Op) (u : ℕ) (un : Option String)
    (h : mirrorInv st pre) : mirrorInv (start st u un).1 (pre ++ [.start u un]) := by
  obtain ⟨us, bs, es⟩ := st
  obtain ⟨h1, h2, h3, h4, h5⟩ := h
  cases hf : findUser ⟨us, bs, es⟩ u with
  | some r0 =>
      have hst : (start ⟨us, bs, es⟩ u un).1 = ⟨us, bs, es⟩ := by
        unfold start
        rw [hf]
      rw [hst]
      have hsu : hasStart pre u = true := by rw [← h2 u, hf]; rfl
      refine ⟨h1, ?_, ?_, ?_, ?_⟩
      · intro v
        rw [hasStart_snoc_start, h2 v]
        by_cases huv : u = v
        · subst huv
          simp [hsu]
        · rw [beq_eq_false_iff_ne.2 huv, Bool.or_false]
      · intro r' hr'
        rw [lastSetBudget_snoc_start]
        exact h3 r' hr'
      · intro v hv
        rw [hasStart_snoc_start] at hv
        exact h4 v (Bool.or_eq_false_iff.1 hv).1
      · intro v hv
        rw [hasStart_snoc_start] at hv
        rw [lastSetBudget_snoc_start]
        exact h5 v (Bool.or_eq_false_iff.1 hv).1
  | none =>
      have hst : (start ⟨us, bs, es⟩ u un).1 =
          ⟨us ++ [⟨u, displayName u un, none, []⟩], bs, es⟩ := by
        unfold start
        rw [hf]
      rw [hst]
      have hf' : us.find? (fun r => r.uid == u) = none := hf
      have hsu : hasStart pre u = false := by rw [← h2 u, hf]; rfl
      have hnm : ∀ a ∈ us, ¬(a.uid == u) = true := List.find?_eq_none.1 hf'
      refine ⟨?_, ?_, ?_, ?_, ?_⟩
      · show usersUnique (us ++ [⟨u, displayName u un, none, []⟩])
        unfold usersUnique
        rw [List.pairwise_append]
        refine ⟨h1, List.pairwise_singleton _ _, ?_⟩
        intro a ha b hb
        rw [List.mem_singleton.1 hb]
        intro he
        exact hnm a ha (by simp [he])
      · intro v
        rw [hasStart_snoc_start]
        have hfind : findUser ⟨us ++ [⟨u, displayName u un, none, []⟩], bs, es⟩ v =
            ((us.find? (fun r => r.uid == v)).or
              (([⟨u, displayName u un, none, []⟩] : List UserDoc).find?
                (fun r => r.uid == v))) := List.find?_append
        rw [hfind]
        by_cases huv : u = v
        · subst huv
          rw [hf', Option.none_or, List.find?_cons_of_pos _ (by simp)]
          simp [hsu]
        · rw [List.find?_cons_of_neg _ (by simp [huv]), List.find?_nil, Option.or_none]
          rw [show (us.find? (fun r => r.uid == v)).isSome = hasStart pre v from h2 v]
          rw [beq_eq_false_iff_ne.2 huv, Bool.or_false]
      · intro r' hr'
        rcases List.mem_append.1 hr' with hmem | hmem
        · rw [lastSetBudget_snoc_start]
          exact h3 r' hmem
        · rw [List.mem_singleton.1 hmem]
          refine ⟨?_, ?_⟩
          · show (none : Option BudgetDoc) = lastSetBudget u (pre ++ [Op.start u un])
            rw [lastSetBudget_snoc_start]
            exact (h5 u hsu).symm
          · show ([] : List ExpenseEntry) =
              (es.filter (fun x => x.uid == u)).map ExpenseDoc.toEntry
            have h4' : es.filter (fun x => x.uid == u) = [] := h4 u hsu
            rw [h4']
            rfl
      · intro v hv
        rw [hasStart_snoc_start] at hv
        exact h4 v (Bool.or_eq_false_iff.1 hv).1
      · intro v hv
        rw [hasStart_snoc_start] at hv
        rw [lastSetBudget_snoc_start]
        exact h5 v (Bool.or_eq_false_iff.1 hv).1

theorem mirrorInv_step_setbudget (st : Store) (pre : List Op) (u : ℕ)
    (un : Option String) (args : List String) (now : PyDateTime)
    (hg : hasStart pre u = true) (h : mirrorInv st pre) :
    mirrorInv (set_budget st u un args now).1 (pre ++ [.setbudget u un args now]) := by
  obtain ⟨us, bs, es⟩ := st
  obtain ⟨h1, h2, h3, h4, h5⟩ := h
  have hneu : ∀ v, hasStart pre v = false → ¬ u = v := by
    intro v hv he
    subst he
    rw [hg] at hv
    exact Bool.noConfusion hv
  cases hp : opBudgetDoc? u un args now with
  | none =>
      have hst : (set_budget ⟨us, bs, es⟩ u un args now).1 = ⟨us, bs, es⟩ := by
        unfold set_budget
        rw [hp]
      rw [hst]
      refine ⟨h1, ?_, ?_, ?_, ?_⟩
      · intro v
        rw [hasStart_snoc_setbudget]
        exact h2 v
      · intro r hr
        rcases h3 r hr with ⟨hb, he⟩
        refine ⟨?_, he⟩
        rw [lastSetBudget_snoc_setbudget]
        by_cases huv : u = r.uid
        · rw [if_pos huv, hp]
          exact hb
        · rw [if_neg huv]
          exact hb
      · intro v hv
        rw [hasStart_snoc_setbudget] at hv
        exact h4 v hv
      · intro v hv
        rw [hasStart_snoc_setbudget] at hv
        rw [lastSetBudget_snoc_setbudget, if_neg (hneu v hv)]
        exact h5 v hv
  | some d =>
      have h1' : usersUnique us := h1
      have hmap := updateFirst_users_eq_map u (fun r => { r with budget := some d }) us h1'
      have hguid : ∀ r : UserDoc,
          (if r.uid = u then ({ r with budget := some d } : UserDoc) else r).uid = r.uid := by
        intro r
        by_cases hru : r.uid = u <;> simp [hru]
      have hst : (set_budget ⟨us, bs, es⟩ u un args now).1 =
          ⟨us.map (fun r => if r.uid = u then { r with budget := some d } else r),
            updateOneUpsert (budgetKey u (get_month_str now)) d bs, es⟩ := by
        unfold set_budget
        rw [hp, ← hmap]
      rw [hst]
      refine ⟨?_, ?_, ?_, ?_, ?_⟩
      · exact usersUnique_map us _ hguid h1'
      · intro v
        rw [hasStart_snoc_setbudget]
        exact (find?_isSome_map_uid us
          (fun r => if r.uid = u then { r with budget := some d } else r) hguid v).trans (h2 v)
      · intro r' hr'
        rcases List.mem_map.1 hr' with ⟨r, hrmem, rfl⟩
        rcases h3 r hrmem with ⟨hb, he⟩
        refine ⟨?_, ?_⟩
        · rw [hguid r, lastSetBudget_snoc_setbudget]
          by_cases hru : r.uid = u
          · rw [if_pos (show u = r.uid from hru.symm), hp]
            simp [hru]
          · rw [if_neg (show ¬ u = r.uid from fun he2 => hru he2.symm)]
            simpa [hru] using hb
        · rw [hguid r]
          by_cases hru : r.uid = u <;> simpa [hru] using he
      · intro v hv
        rw [hasStart_snoc_setbudget] at hv
        exact h4 v hv
      · intro v hv
        rw [hasStart_snoc_setbudget] at hv
        rw [lastSetBudget_snoc_setbudget, if_neg (hneu v hv)]
        exact h5 v hv

theorem mirrorInv_step_add (st : Store) (pre : List Op) (u : ℕ)
    (un : Option String) (msg : String) (now : PyDateTime)
    (hg : hasStart pre u = true) (h : mirrorInv st pre) :
    mirrorInv (add_expense st u un msg now).1 (pre ++ [.add u un msg now]) := by
  obtain ⟨us, bs, es⟩ := st
  obtain ⟨h1, h2, h3, h4, h5⟩ := h
  have hneu : ∀ v, hasStart pre v = false → ¬ u = v := by
    intro v hv he
    subst he
    rw [hg] at hv
    exact Bool.noConfusion hv
  cases hp : opExpenseDoc? u un msg now with
  | none =>
      have hst : (add_expense ⟨us, bs, es⟩ u un msg now).1 = ⟨us, bs, es⟩ := by
        unfold add_expense
        rw [hp]
      rw [hst]
      refine ⟨h1, ?_, ?_, ?_, ?_⟩
      · intro v
        rw [hasStart_snoc_add]
        exact h2 v
      · intro r hr
        rcases h3 r hr with ⟨hb, he⟩
        rw [lastSetBudget_snoc_add]
        exact ⟨hb, he⟩
      · intro v hv
        rw [hasStart_snoc_add] at hv
        exact h4 v hv
      · intro v hv
        rw [hasStart_snoc_add] at hv
        rw [lastSetBudget_snoc_add]
        exact h5 v hv
  | some doc =>
      obtain ⟨hdu, -⟩ := opExpenseDoc?_shape u un msg now doc hp
      have h1' : usersUnique us := h1
      have hmap := updateFirst_users_eq_map u
        (fun r => { r with expenses := r.expenses ++ [doc.toEntry] }) us h1'
      have hguid : ∀ r : UserDoc,
          (if r.uid = u then ({ r with expenses := r.expenses ++ [doc.toEntry] } : UserDoc)
            else r).uid = r.uid := by
        intro r
        by_cases hru : r.uid = u <;> simp [hru]
      have hst : (add_expense ⟨us, bs, es⟩ u un msg now).1 =
          ⟨us.map (fun r =>
              if r.uid = u then { r with expenses := r.expenses ++ [doc.toEntry] } else r),
            bs, es ++ [doc]⟩ := by
        unfold add_expense
        rw [hp, ← hmap]
      rw [hst]
      refine ⟨?_, ?_, ?_, ?_, ?_⟩
      · exact usersUnique_map us _ hguid h1'
      · intro v
        rw [hasStart_snoc_add]
        exact (find?_isSome_map_uid us
          (fun r => if r.uid = u then { r with expenses := r.expenses ++ [doc.toEntry] } else r)
          hguid v).trans (h2 v)
      · intro r' hr'
        rcases List.mem_map.1 hr' with ⟨r, hrmem, rfl⟩
        rcases h3 r hrmem with ⟨hb, he⟩
        refine ⟨?_, ?_⟩
        · rw [hguid r, lastSetBudget_snoc_add]
          by_cases hru : r.uid = u <;> simpa [hru] using hb
        · rw [hguid r]
          have hur : ¬ u = r.uid ∨ r.uid = u := by
            by_cases hru : r.uid = u
            · exact Or.inr hru
            · exact Or.inl (fun he2 => hru he2.symm)
          by_cases hru : r.uid = u
          · have h1doc : [doc].filter (fun x => x.uid == r.uid) = [doc] := by
              simp [hdu, hru]
            simp only [List.filter_append, List.map_append, h1doc, if_pos hru]
            show r.expenses ++ [doc.toEntry] =
              (es.filter (fun x => x.uid == r.uid)).map ExpenseDoc.toEntry ++
                [doc].map ExpenseDoc.toEntry
            rw [he]
            rfl
          · have hur' : ¬ u = r.uid := fun he2 => hru he2.symm
            have h0doc : [doc].filter (fun x => x.uid == r.uid) = [] := by
              simp [hdu]
              exact hur'
            simp only [List.filter_append, List.map_append, h0doc, if_neg hru]
            show r.expenses =
              (es.filter (fun x => x.uid == r.uid)).map ExpenseDoc.toEntry ++
                ([] : List ExpenseDoc).map ExpenseDoc.toEntry
            rw [he]
            simp
      · intro v hv
        rw [hasStart_snoc_add] at hv
        show (es ++ [doc]).filter (fun x => x.uid == v) = []
        have h4' : es.filter (fun x => x.uid == v) = [] := h4 v hv
        rw [List.filter_append, h4']
        have h0doc : [doc].filter (fun x => x.uid == v) = [] := by
          simp [hdu]
          exact hneu v hv
        rw [h0doc]
        rfl
      · intro v hv
        rw [hasStart_snoc_add] at hv
        rw [lastSetBudget_snoc_add]
        exact h5 v hv

theorem mirrorInv_empty : mirrorInv emptyStore [] := by
  refine ⟨?_, ?_, ?_, ?_, ?_⟩ <;>
    simp [usersUnique, findUser, emptyStore, hasStart, lastSetBudget]

theorem mirrorInv_run (rest : List Op) : ∀ (pre : List Op) (st : Store),
    mirrorInv st pre → goodFrom pre rest → mirrorInv (runOps st rest) (pre ++ rest) := by
  induction rest with
  | nil =>
      intro pre st h _
      simpa using h
  | cons op ops ih =>
      intro pre st h hg
      obtain ⟨hop, hrest⟩ := hg
      have hstep : mirrorInv (stepOp st op) (pre ++ [op]) := by
        cases op with
        | start u un => exact mirrorInv_step_start st pre u un h
        | setbudget u un args now => exact mirrorInv_step_setbudget st pre u un args now hop h
        | add u un msg now => exact mirrorInv_step_add st pre u un msg now hop h
      have hx := ih (pre ++ [op]) (stepOp st op) hstep hrest
      simpa [runOps, List.append_assoc] using hx

/-! ## Remaining helper lemmas -/

/-- The `for result in expenses.aggregate(pipeline)` loop computes exactly
the sum of the matching amounts (and leaves 0 when nothing matched). -/
theorem foldl_aggregateTotals (l : List PyFloat) :
    (aggregateTotals l).foldl (fun _ r => r) (.finite 0 0) = sumAmounts l := by
  cases l with
  | nil => rfl
  | cons x xs => rfl

theorem get_month_range_isSome_of_digits (s : String) (a b : List Char)
    (hsl : s.toList = a ++ '-' :: b) (ha : a ≠ []) (hb : b ≠ [])
    (had : ∀ x ∈ a, x.isDigit = true) (hbd : ∀ x ∈ b, x.isDigit = true) :
    ∃ r, get_month_range s = some r := by
  have hs2 : splitChar '-' s.toList = [a, b] := by
    rw [hsl]
    exact splitChar_sep '-' a b (fun x hx => ne_dash_of_isDigit x (had x hx))
      (fun x hx => ne_dash_of_isDigit x (hbd x hx))
  refine ⟨(⟨digitsToNat a, digitsToNat b, 1, 0, 0, 0, 0⟩,
    ⟨digitsToNat a, digitsToNat b, monthrange (digitsToNat a) (digitsToNat b),
      0, 0, 0, 0⟩), ?_⟩
  unfold get_month_range
  rw [hs2, List.map_cons, List.map_cons, List.map_nil,
    parseIntList?_digits a ha had, parseIntList?_digits b hb hbd]

/-- `strptime("%Y-%m")` success implies `get_month_range` succeeds, so the
`ValueError` branch of `get_month_range` is unreachable from `view` and
`export`. -/
theorem get_month_range_of_strptime (s : String) (y m : ℕ)
    (h : parseStrptimeYm? s.toList = some (y, m)) :
    ∃ r, get_month_range s = some r := by
  unfold parseStrptimeYm? at h
  split at h
  · next y1 y2 y3 y4 ms heq =>
      split at h
      · next hyd =>
          have hy : y1.isDigit = true ∧ y2.isDigit = true ∧ y3.isDigit = true ∧
              y4.isDigit = true := by
            simpa [Bool.and_eq_true, and_assoc] using hyd
          have had : ∀ x ∈ [y1, y2, y3, y4], x.isDigit = true := by
            intro x hx
            simp only [List.mem_cons, List.not_mem_nil, or_false] at hx
            rcases hx with rfl | rfl | rfl | rfl
            · exact hy.1
            · exact hy.2.1
            · exact hy.2.2.1
            · exact hy.2.2.2
          split at h
          · next m1 =>
              split at h
              · next hc =>
                  rw [Bool.and_eq_true] at hc
                  have hm1 : m1.isDigit = true := hc.1
                  refine get_month_range_isSome_of_digits s [y1, y2, y3, y4] [m1]
                    heq (by simp) (by simp) had ?_
                  intro x hx
                  simp only [List.mem_singleton] at hx
                  subst hx
                  exact hm1
              · exact absurd h (by simp)
          · next m1 m2 =>
              have hdig : m1.isDigit = true ∧ m2.isDigit = true := by
                split at h
                · next hc =>
                    rw [Bool.and_eq_true] at hc
                    obtain ⟨hc1, hc2⟩ := hc
                    have hm1 : m1 = '1' := by simpa using hc1
                    have hm2 : m2 = '0' ∨ m2 = '1' ∨ m2 = '2' := by
                      simpa [or_assoc] using hc2
                    subst hm1
                    rcases hm2 with rfl | rfl | rfl
                    · exact ⟨by decide, by decide⟩
                    · exact ⟨by decide, by decide⟩
                    · exact ⟨by decide, by decide⟩
                · split at h
                  · next hc =>
                      rw [Bool.and_eq_true, Bool.and_eq_true] at hc
                      obtain ⟨⟨hc3, hc4⟩, hc5⟩ := hc
                      have hm1 : m1 = '0' := by simpa using hc3
                      subst hm1
                      exact ⟨by decide, hc4⟩
                  · exact absurd h (by simp)
              refine get_month_range_isSome_of_digits s [y1, y2, y3, y4] [m1, m2]
                heq (by simp) (by simp) had ?_
              intro x hx
              simp only [List.mem_cons, List.not_mem_nil, or_false] at hx
              rcases hx with rfl | rfl
              · exact hdig.1
              · exact hdig.2
          · exact absurd h (by simp)
      · exact absurd h (by simp)
  · exact absurd h (by simp)

/-- Every strict `YYYY-MM` label with month 01-12 whose four year digits
denote a year of at least 0001 is accepted by the `strptime` validation
(year 0000 is rejected by the `datetime` constructor). -/
theorem matchesYYYYMM_strptime (s : String) (h : matchesYYYYMM s = true)
    (hy : 1 ≤ digitsToNat (s.toList.take 4)) :
    (parseStrptimeYm? s.toList).isSome = true := by
  unfold matchesYYYYMM at h
  split at h
  · next y1 y2 y3 y4 m1 m2 heq =>
      rw [Bool.and_eq_true, Bool.and_eq_true, Bool.and_eq_true, Bool.and_eq_true] at h
      obtain ⟨⟨⟨⟨h1, h2⟩, h3⟩, h4⟩, h5⟩ := h
      rw [heq] at hy
      have hy4 : 1 ≤ digitsToNat [y1, y2, y3, y4] := by simpa using hy
      unfold parseStrptimeYm?
      rw [heq]
      show (if (y1.isDigit && y2.isDigit && y3.isDigit && y4.isDigit) = true then
          (if (m1 == '1' && (m2 == '0' || m2 == '1' || m2 == '2')) = true then
            mkYm (digitsToNat [y1, y2, y3, y4]) (10 + digitVal m2)
          else if (m1 == '0' && m2.isDigit && !(m2 == '0')) = true then
            mkYm (digitsToNat [y1, y2, y3, y4]) (digitVal m2)
          else none)
        else none).isSome = true
      rw [if_pos (by rw [h1, h2, h3, h4]; rfl)]
      rw [Bool.or_eq_true] at h5
      rcases h5 with hc | hc
      · rw [Bool.and_eq_true, Bool.and_eq_true] at hc
        obtain ⟨⟨hc1, hc2⟩, hc3⟩ := hc
        have hm1 : m1 = '0' := by simpa using hc1
        subst hm1
        rw [if_neg (by simp), if_pos (by rw [hc2, hc3]; rfl)]
        unfold mkYm
        rw [if_pos hy4]
        rfl
      · rw [if_pos hc]
        unfold mkYm
        rw [if_pos hy4]
        rfl
  · exact Bool.noConfusion h

/-- `/start`, `/setbudget` and `/add` all preserve uniqueness of budget
documents per (user, month). -/
theorem budgetUnique_step (st : Store) (op : Op) (h : budgetUnique st.budgets) :
    budgetUnique (stepOp st op).budgets := by
  obtain ⟨us, bs, es⟩ := st
  cases op with
  | start u un =>
      have hbs : (start ⟨us, bs, es⟩ u un).1.budgets = bs := by
        unfold start
        cases hf : findUser ⟨us, bs, es⟩ u <;> rfl
      show budgetUnique (start ⟨us, bs, es⟩ u un).1.budgets
      rw [hbs]
      exact h
  | setbudget u un args now =>
      show budgetUnique (set_budget ⟨us, bs, es⟩ u un args now).1.budgets
      cases hp : opBudgetDoc? u un args now with
      | none =>
          have hbs : (set_budget ⟨us, bs, es⟩ u un args now).1.budgets = bs := by
            unfold set_budget
            rw [hp]
          rw [hbs]
          exact h
      | some d =>
          obtain ⟨v, rfl⟩ := opBudgetDoc?_eq u un args now d hp
          have hbs : (set_budget ⟨us, bs, es⟩ u un args now).1.budgets =
              updateOneUpsert (budgetKey u (get_month_str now))
                (mkBudgetDoc u un v now) bs := by
            unfold set_budget
            rw [hp]
          rw [hbs]
          exact budgetUnique_upsert u (get_month_str now) _ bs rfl h
  | add u un msg now =>
      show budgetUnique (add_expense ⟨us, bs, es⟩ u un msg now).1.budgets
      cases hp : opExpenseDoc? u un msg now with
      | none =>
          have hbs : (add_expense ⟨us, bs, es⟩ u un msg now).1.budgets = bs := by
            unfold add_expense
            rw [hp]
          rw [hbs]
          exact h
      | some doc =>
          have hbs : (add_expense ⟨us, bs, es⟩ u un msg now).1.budgets = bs := by
            unfold add_expense
            rw [hp]
          rw [hbs]
          exact h

theorem budgetUnique_runOps (ops : List Op) : ∀ st : Store,
    budgetUnique st.budgets → budgetUnique (runOps st ops).budgets := by
  induction ops with
  | nil =>
      intro st h
      exact h
  | cons op ops ih =>
      intro st h
      exact ih (stepOp st op) (budgetUnique_step st op h)

/-- Helper: the budgets collection after a successful `/setbudget`. -/
theorem set_budget_budgets (st : Store) (u : ℕ) (un : Option String)
    (args : List String) (now : PyDateTime) (d : BudgetDoc)
    (hop : opBudgetDoc? u un args now = some d) :
    (set_budget st u un args now).1.budgets =
      updateOneUpsert (budgetKey u (get_month_str now)) d st.budgets := by
  obtain ⟨us, bs, es⟩ := st
  unfold set_budget
  rw [hop]

/-! ## The claims -/

/-- C1 (code bug): the spec says the query range for a month is
[first instant of month, first instant of next month), so an expense on the
last calendar day is counted.  The code's `get_month_range` instead returns
the first instant of the **last day** as the exclusive upper bound (its own
docstring promises "the last datetime of the month"), so an expense
timestamped 2024-01-31 12:00 falls outside the code's `$gte`/`$lt` window
and `/view 2024-01` reports no expenses, though the spec's range contains
it. -/
theorem C1_last_day_excluded :
    get_month_range "2024-01" =
      some (⟨2024, 1, 1, 0, 0, 0, 0⟩, ⟨2024, 1, 31, 0, 0, 0, 0⟩) ∧
    inRangeB ⟨2024, 1, 1, 0, 0, 0, 0⟩ ⟨2024, 1, 31, 0, 0, 0, 0⟩
      ⟨2024, 1, 31, 12, 0, 0, 0⟩ = false ∧
    inRangeB (spec_month_range 2024 1).1 (spec_month_range 2024 1).2
      ⟨2024, 1, 31, 12, 0, 0, 0⟩ = true ∧
    view ⟨[], [], [⟨42, "u", .finite 5 0, "Lunch", "Food", ⟨2024, 1, 31, 12, 0, 0, 0⟩⟩]⟩
      42 ["2024-01"] = ⟨true, "No expenses found for 2024-01."⟩ := by
  decide

/-- C2 (counterexample): the claim says the temporary CSV is removed on
every exit path including send failure; but when `reply_document` raises,
the handler propagates before `os.remove`, leaving the file on disk. -/
theorem C2_counterexample :
    (exportCmd ⟨[], [], [⟨42, "u", .finite 5 0, "Lunch", "Food", ⟨2024, 1, 30, 12, 0, 0, 0⟩⟩]⟩
        42 ["2024-01"] [] false).files = ["expenses_42_2024-01.csv"] ∧
    (exportCmd ⟨[], [], [⟨42, "u", .finite 5 0, "Lunch", "Food", ⟨2024, 1, 30, 12, 0, 0, 0⟩⟩]⟩
        42 ["2024-01"] [] false).reply = ExportReply.sendFailed := by
  decide

/-- C2 (amended): the temporary CSV is removed when sending succeeds (the
handler's net effect on disk is nil); when sending the attachment fails,
the exception propagates before `os.remove` and the file is left on disk. -/
theorem C2_cleanup_amended :
    (∀ (st : Store) (uid : ℕ) (args : List String) (fs : List String),
        (exportCmd st uid args fs true).files = fs) ∧
    (∀ (st : Store) (uid : ℕ) (month : String) (rest : List String) (fs : List String)
        (y m : ℕ) (s e : PyDateTime),
        parseStrptimeYm? month.toList = some (y, m) →
        get_month_range month = some (s, e) →
        expensesInRange st uid s e ≠ [] →
        (exportCmd st uid (month :: rest) fs false).files =
          ("expenses_" ++ renderNat uid ++ "_" ++ month ++ ".csv") :: fs) := by
  constructor
  · intro st uid args fs
    cases args with
    | nil => rfl
    | cons month rest =>
        cases hv : parseStrptimeYm? month.toList with
        | none =>
            have hv' : parseStrptimeYm? month.data = none := hv
            simp [exportCmd, hv']
        | some p =>
            have hv' : parseStrptimeYm? month.data = some p := hv
            cases hr : get_month_range month with
            | none => simp [exportCmd, hv', hr]
            | some se =>
                obtain ⟨s, e⟩ := se
                rcases hx : expensesInRange st uid s e with - | ⟨x0, xr⟩
                · simp [exportCmd, hv', hr, hx]
                · simp [exportCmd, hv', hr, hx, List.isEmpty_cons, List.erase_cons_head]
  · intro st uid month rest fs y m s e hv hr hne
    have hv' : parseStrptimeYm? month.data = some (y, m) := hv
    rcases hx : expensesInRange st uid s e with - | ⟨x0, xr⟩
    · exact absurd hx hne
    · simp [exportCmd, hv', hr, hx, List.isEmpty_cons]

/-- C2 witness: a concrete export over one expense; on success the disk is
left as found, on send failure the CSV file remains. -/
theorem C2_witness :
    (exportCmd ⟨[], [], [⟨42, "u", .finite 5 0, "Lunch", "Food", ⟨2024, 1, 30, 12, 0, 0, 0⟩⟩]⟩
        42 ["2024-01"] [] true).files = ([] : List String) ∧
    (exportCmd ⟨[], [], [⟨42, "u", .finite 5 0, "Lunch", "Food", ⟨2024, 1, 30, 12, 0, 0, 0⟩⟩]⟩
        42 ["2024-01"] [] false).files =
      ("expenses_" ++ renderNat 42 ++ "_" ++ "2024-01" ++ ".csv") :: [] :=
  ⟨C2_cleanup_amended.1 _ 42 ["2024-01"] [],
   C2_cleanup_amended.2 _ 42 "2024-01" [] [] 2024 1 ⟨2024, 1, 1, 0, 0, 0, 0⟩
     ⟨2024, 1, 31, 0, 0, 0, 0⟩ (by decide) (by decide) (by decide)⟩

/-- C3 (counterexample): a successful `/setbudget` by a user who never ran
`/start` writes the Budget record but leaves the `users` collection empty,
so no User record mirrors the write — the claim's "for every user,
including one for whom no User record was ever created" fails. -/
theorem C3_counterexample :
    (runOps emptyStore [Op.setbudget 42 none ["100"] ⟨2024, 5, 1, 0, 0, 0, 0⟩]).budgets =
      [mkBudgetDoc 42 none (.finite 100 0) ⟨2024, 5, 1, 0, 0, 0, 0⟩] ∧
    (runOps emptyStore [Op.setbudget 42 none ["100"] ⟨2024, 5, 1, 0, 0, 0, 0⟩]).users = [] ∧
    (set_budget emptyStore 42 none ["100"] ⟨2024, 5, 1, 0, 0, 0, 0⟩).2 =
      "✅ Budget for 2024-05 set to 100.00" := by
  decide

/-- C3 (amended): starting from the empty store, on every trace in which
each user's `/start` precedes all of that user's `/setbudget` and `/add`
invocations, every existing User record's denormalized budget snapshot
equals the most recently written Budget record for that user (the empty
placeholder if none) and its denormalized expense sequence mirrors exactly
the Expense Log entries for that user; a user who never ran `/start` has no
User record at all (the handlers' `update_one` calls match nothing and
create none). -/
theorem C3_mirror_amended (ops : List Op) (h : goodTrace ops) :
    (∀ r ∈ (runOps emptyStore ops).users,
        r.budget = lastSetBudget r.uid ops ∧
        r.expenses = ((runOps emptyStore ops).expenses.filter
            (fun x => x.uid == r.uid)).map ExpenseDoc.toEntry) ∧
    (∀ u, hasStart ops u = false → findUser (runOps emptyStore ops) u = none) := by
  have hrun := mirrorInv_run ops [] emptyStore mirrorInv_empty h
  rw [List.nil_append] at hrun
  obtain ⟨h1, h2, h3, h4, h5⟩ := hrun
  refine ⟨h3, ?_⟩
  intro u hu
  have := h2 u
  rw [hu] at this
  exact Option.not_isSome_iff_eq_none.1 (by simp [this])

/-- C3 witness: on a concrete well-ordered trace the amended mirror theorem
applies; in particular a user who never started has no record. -/
theorem C3_witness :
    findUser (runOps emptyStore
      [Op.start 42 none, Op.setbudget 42 none ["100"] ⟨2024, 5, 1, 0, 0, 0, 0⟩,
       Op.add 42 none "/add 5, a, b" ⟨2024, 5, 2, 0, 0, 0, 0⟩]) 999 = none :=
  (C3_mirror_amended
    [Op.start 42 none, Op.setbudget 42 none ["100"] ⟨2024, 5, 1, 0, 0, 0, 0⟩,
     Op.add 42 none "/add 5, a, b" ⟨2024, 5, 2, 0, 0, 0, 0⟩]
    ⟨trivial, by decide, by decide, trivial⟩).2 999 (by decide)

/-- C4: two `/setbudget` calls by the same user in the same month leave
exactly one Budget record keyed (user, month), holding the second amount
and timestamp; and budget-key uniqueness is preserved by every sequence of
operations. -/
theorem C4_budget_upsert_unique :
    (∀ (st : Store) (u : ℕ) (un1 un2 : Option String) (a1 a2 : String)
        (r1 r2 : List String) (A1 A2 : PyFloat) (t1 t2 : PyDateTime),
        budgetUnique st.budgets →
        parseFloat? a1.toList = some A1 →
        parseFloat? a2.toList = some A2 →
        get_month_str t1 = get_month_str t2 →
        (set_budget (set_budget st u un1 (a1 :: r1) t1).1 u un2 (a2 :: r2) t2).1.budgets.filter
            (budgetKey u (get_month_str t2)) = [mkBudgetDoc u un2 A2 t2] ∧
        budgetUnique
          (set_budget (set_budget st u un1 (a1 :: r1) t1).1 u un2 (a2 :: r2) t2).1.budgets) ∧
    (∀ (st : Store) (ops : List Op),
        budgetUnique st.budgets → budgetUnique (runOps st ops).budgets) := by
  constructor
  · intro st u un1 un2 a1 a2 r1 r2 A1 A2 t1 t2 hu hp1 hp2 hm
    have hp1' : parseFloat? a1.data = some A1 := hp1
    have hp2' : parseFloat? a2.data = some A2 := hp2
    have hop1 : opBudgetDoc? u un1 (a1 :: r1) t1 = some (mkBudgetDoc u un1 A1 t1) := by
      simp [opBudgetDoc?, hp1']
    have hop2 : opBudgetDoc? u un2 (a2 :: r2) t2 = some (mkBudgetDoc u un2 A2 t2) := by
      simp [opBudgetDoc?, hp2']
    have hu1 : budgetUnique (set_budget st u un1 (a1 :: r1) t1).1.budgets := by
      rw [set_budget_budgets st u un1 (a1 :: r1) t1 _ hop1]
      exact budgetUnique_upsert u (get_month_str t1) _ _ rfl hu
    constructor
    · rw [set_budget_budgets _ u un2 (a2 :: r2) t2 _ hop2]
      exact filter_updateOneUpsert _ _ _ (by simp [budgetKey, mkBudgetDoc])
        (filter_key_len_le_one _ _ _ hu1)
    · rw [set_budget_budgets _ u un2 (a2 :: r2) t2 _ hop2]
      exact budgetUnique_upsert u (get_month_str t2) _ _ rfl hu1
  · intro st ops h
    exact budgetUnique_runOps ops st h

/-- C4 witness: setting 100 then 250 for user 7 in May 2024 leaves exactly
one budget record for (7, "2024-05") with amount 250. -/
theorem C4_witness :
    (set_budget (set_budget emptyStore 7 none ["100"] ⟨2024, 5, 1, 0, 0, 0, 0⟩).1
        7 none ["250"] ⟨2024, 5, 2, 0, 0, 0, 0⟩).1.budgets.filter
      (budgetKey 7 (get_month_str ⟨2024, 5, 2, 0, 0, 0, 0⟩)) =
      [mkBudgetDoc 7 none (.finite 250 0) ⟨2024, 5, 2, 0, 0, 0, 0⟩] ∧
    budgetUnique (set_budget (set_budget emptyStore 7 none ["100"] ⟨2024, 5, 1, 0, 0, 0, 0⟩).1
        7 none ["250"] ⟨2024, 5, 2, 0, 0, 0, 0⟩).1.budgets :=
  C4_budget_upsert_unique.1 emptyStore 7 none none "100" "250" [] []
    (.finite 100 0) (.finite 250 0) ⟨2024, 5, 1, 0, 0, 0, 0⟩ ⟨2024, 5, 2, 0, 0, 0, 0⟩
    List.Pairwise.nil (by decide) (by decide) (by decide)

/-- C5: an `/add` whose argument text (the stripped text after `/add`) has
fewer than two commas, or whose segment before the first comma does not
parse as a float, gets the usage reply and leaves the store untouched. -/
theorem C5_add_validation (st : Store) (uid : ℕ) (un : Option String)
    (msg : String) (now : PyDateTime)
    (h : (pyStrip (msg.toList.drop 4)).count ',' < 2 ∨
      parseFloat? (pyStrip ((splitChar ',' (pyStrip (msg.toList.drop 4))).headI)) = none) :
    add_expense st uid un msg now = (st, addUsageMsg) := by
  have hop : opExpenseDoc? uid un msg now = none := by
    rcases h with hcount | hparse
    · have hlen : (splitChar ',' (pyStrip (msg.toList.drop 4))).length < 3 := by
        rw [splitChar_length]
        omega
      cases hsc : splitChar ',' (pyStrip (msg.toList.drop 4)) with
      | nil => exact absurd hsc (splitChar_ne_nil ',' _)
      | cons p0 rest =>
          cases rest with
          | nil =>
              have hps : pySplit2 (pyStrip (msg.toList.drop 4)) = [p0] := by
                unfold pySplit2
                rw [hsc]
              unfold opExpenseDoc?
              rw [hps]
              rfl
          | cons p1 rest2 =>
              cases rest2 with
              | nil =>
                  have hps : pySplit2 (pyStrip (msg.toList.drop 4)) = [p0, p1] := by
                    unfold pySplit2
                    rw [hsc]
                  unfold opExpenseDoc?
                  rw [hps]
                  rfl
              | cons p2 rest3 =>
                  rw [hsc] at hlen
                  simp only [List.length_cons] at hlen
                  omega
    · cases hsc : splitChar ',' (pyStrip (msg.toList.drop 4)) with
      | nil => exact absurd hsc (splitChar_ne_nil ',' _)
      | cons p0 rest =>
          rw [hsc] at hparse
          have hparse0 : parseFloat? (pyStrip p0) = none := hparse
          cases rest with
          | nil =>
              have hps : pySplit2 (pyStrip (msg.toList.drop 4)) = [p0] := by
                unfold pySplit2
                rw [hsc]
              unfold opExpenseDoc?
              rw [hps]
              rfl
          | cons p1 rest2 =>
              cases rest2 with
              | nil =>
                  have hps : pySplit2 (pyStrip (msg.toList.drop 4)) = [p0, p1] := by
                    unfold pySplit2
                    rw [hsc]
                  unfold opExpenseDoc?
                  rw [hps]
                  rfl
              | cons p2 rest3 =>
                  have hps : pySplit2 (pyStrip (msg.toList.drop 4)) =
                      [p0, p1, List.intercalate [','] (p2 :: rest3)] := by
                    unfold pySplit2
                    rw [hsc]
                  unfold opExpenseDoc?
                  rw [hps]
                  show (parseFloat? (pyStrip p0)).map
                      (fun amount => (⟨uid, displayName uid un, amount,
                        String.mk (pyStrip p1),
                        String.mk (pyStrip (List.intercalate [','] (p2 :: rest3))),
                        now⟩ : ExpenseDoc)) = none
                  rw [hparse0]
                  rfl
  obtain ⟨us, bs, es⟩ := st
  unfold add_expense
  rw [hop]

/-- C5 witness: a non-numeric amount and a comma-less argument each produce
the usage reply with no write. -/
theorem C5_witness :
    (parseFloat? (pyStrip ((splitChar ','
        (pyStrip ("/add abc, Lunch, Food".toList.drop 4))).headI)) = none ∧
      add_expense emptyStore 1 none "/add abc, Lunch, Food" ⟨2024, 5, 1, 0, 0, 0, 0⟩ =
        (emptyStore, addUsageMsg)) ∧
    ((pyStrip ("/add 5.00".toList.drop 4)).count ',' < 2 ∧
      add_expense emptyStore 1 none "/add 5.00" ⟨2024, 5, 1, 0, 0, 0, 0⟩ =
        (emptyStore, addUsageMsg)) :=
  ⟨⟨by decide, C5_add_validation emptyStore 1 none "/add abc, Lunch, Food"
      ⟨2024, 5, 1, 0, 0, 0, 0⟩ (Or.inr (by decide))⟩,
   ⟨by decide, C5_add_validation emptyStore 1 none "/add 5.00"
      ⟨2024, 5, 1, 0, 0, 0, 0⟩ (Or.inl (by decide))⟩⟩

/-- C6: an `/add` whose argument text has at least two commas and a numeric
first segment inserts exactly one expense, with amount the trimmed text
before the first comma parsed as a float, name the trimmed text between the
first two commas, and category the entire trimmed text after the second
comma (rejoined, so it may itself contain commas). -/
theorem C6_add_parse (st : Store) (uid : ℕ) (un : Option String) (msg : String)
    (now : PyDateTime) (p0 p1 p2 : List Char) (rs : List (List Char)) (amt : PyFloat)
    (hsplit : splitChar ',' (pyStrip (msg.toList.drop 4)) = p0 :: p1 :: p2 :: rs)
    (hamt : parseFloat? (pyStrip p0) = some amt) :
    (add_expense st uid un msg now).1.expenses =
      st.expenses ++ [⟨uid, displayName uid un, amt, String.mk (pyStrip p1),
        String.mk (pyStrip (List.intercalate [','] (p2 :: rs))), now⟩] ∧
    (add_expense st uid un msg now).2 =
      "Successfully added expense! \nAmount: " ++ format2 amt ++ "\nName: " ++
        String.mk (pyStrip p1) ++ "\nCategory: " ++
        String.mk (pyStrip (List.intercalate [','] (p2 :: rs))) := by
  have hps : pySplit2 (pyStrip (msg.toList.drop 4)) =
      [p0, p1, List.intercalate [','] (p2 :: rs)] := by
    unfold pySplit2
    rw [hsplit]
  have hop : opExpenseDoc? uid un msg now =
      some ⟨uid, displayName uid un, amt, String.mk (pyStrip p1),
        String.mk (pyStrip (List.intercalate [','] (p2 :: rs))), now⟩ := by
    unfold opExpenseDoc?
    rw [hps]
    show (parseFloat? (pyStrip p0)).map
        (fun amount => (⟨uid, displayName uid un, amount, String.mk (pyStrip p1),
          String.mk (pyStrip (List.intercalate [','] (p2 :: rs))), now⟩ : ExpenseDoc)) =
      some ⟨uid, displayName uid un, amt, String.mk (pyStrip p1),
        String.mk (pyStrip (List.intercalate [','] (p2 :: rs))), now⟩
    rw [hamt]
    rfl
  obtain ⟨us, bs, es⟩ := st
  constructor
  · unfold add_expense
    rw [hop]
  · unfold add_expense
    rw [hop]

/-- C6 witness: `/add 50, Groceries, Food` creates exactly the expense
(50.00, "Groceries", "Food"). -/
theorem C6_witness :
    (add_expense emptyStore 42 none "/add 50, Groceries, Food"
        ⟨2024, 5, 1, 0, 0, 0, 0⟩).1.expenses =
      [⟨42, "user_42", .finite 50 0, "Groceries", "Food", ⟨2024, 5, 1, 0, 0, 0, 0⟩⟩] :=
  ((C6_add_parse emptyStore 42 none "/add 50, Groceries, Food" ⟨2024, 5, 1, 0, 0, 0, 0⟩
      "50".toList " Groceries".toList " Food".toList [] (.finite 50 0)
      (by decide) (by decide)).1).trans (by decide)

/-- C7: when a budget document `B` exists for (user, current month),
`/balance` replies with `B`'s budget, the exact sum of the user's expense
amounts inside the code's month query range (zero when there are none), and
budget minus spent, each formatted with two decimal places. -/
theorem C7_balance_summary (st : Store) (uid : ℕ) (now : PyDateTime) (B : BudgetDoc)
    (hB : st.budgets.find? (budgetKey uid (get_month_str now)) = some B) :
    ∃ s e, get_month_range (get_month_str now) = some (s, e) ∧
      balance st uid now =
        "Balance Summary for the month:\n\n💰 Budget: " ++ format2 B.budget ++
          "\n📉 Spent: " ++
          format2 (sumAmounts ((expensesInRange st uid s e).map (fun x => x.amount))) ++
          "\n✅ Balance: " ++
          format2 (B.budget.sub
            (sumAmounts ((expensesInRange st uid s e).map (fun x => x.amount)))) := by
  obtain ⟨s, e, hse⟩ := get_month_range_month_str now
  refine ⟨s, e, hse, ?_⟩
  simp only [balance, hB, hse]
  rw [foldl_aggregateTotals]

/-- C7 witness: budget 500, one expense of 50 in May 2024. -/
theorem C7_witness :
    balance ⟨[], [⟨42, "u", "2024-05", .finite 500 0, ⟨2024, 5, 1, 0, 0, 0, 0⟩⟩],
        [⟨42, "u", .finite 50 0, "Groceries", "Food", ⟨2024, 5, 2, 0, 0, 0, 0⟩⟩]⟩
      42 ⟨2024, 5, 3, 0, 0, 0, 0⟩ =
      "Balance Summary for the month:\n\n💰 Budget: 500.00\n📉 Spent: 50.00\n✅ Balance: 450.00" := by
  obtain ⟨s, e, hse, hbal⟩ := C7_balance_summary
    ⟨[], [⟨42, "u", "2024-05", .finite 500 0, ⟨2024, 5, 1, 0, 0, 0, 0⟩⟩],
      [⟨42, "u", .finite 50 0, "Groceries", "Food", ⟨2024, 5, 2, 0, 0, 0, 0⟩⟩]⟩
    42 ⟨2024, 5, 3, 0, 0, 0, 0⟩ ⟨42, "u", "2024-05", .finite 500 0, ⟨2024, 5, 1, 0, 0, 0, 0⟩⟩
    (by decide)
  rw [show get_month_range (get_month_str ⟨2024, 5, 3, 0, 0, 0, 0⟩) =
      some (⟨2024, 5, 1, 0, 0, 0, 0⟩, ⟨2024, 5, 31, 0, 0, 0, 0⟩) from by decide] at hse
  injection hse with hse2
  rw [Prod.ext_iff] at hse2
  obtain ⟨hs, he⟩ := hse2
  subst hs
  subst he
  exact hbal.trans (by decide)

/-- C8 (counterexample): the claim fails in both directions.  "2024-5" does
not match the strict `YYYY-MM` pattern, yet `strptime("%Y-%m")` accepts the
one-digit month, so `/view` and `/export` proceed to query the store
instead of replying with the usage hint; conversely "0000-01" matches the
strict pattern with month 01, yet `strptime` raises `ValueError` (the
`datetime` constructor rejects years below `MINYEAR = 1`), so the handler
replies with the usage hint and performs no query. -/
theorem C8_counterexample :
    matchesYYYYMM "2024-5" = false ∧
    (view emptyStore 1 ["2024-5"]).queried = true ∧
    (view emptyStore 1 ["2024-5"]).reply = "No expenses found for 2024-5." ∧
    (exportCmd emptyStore 1 ["2024-5"] [] true).queried = true ∧
    matchesYYYYMM "0000-01" = true ∧
    parseStrptimeYm? "0000-01".toList = none ∧
    view emptyStore 1 ["0000-01"] = ⟨false, "Usage: /view <YYYY-MM>"⟩ := by
  decide

/-- C8 (amended): `/view` and `/export` reply with the usage hint and
perform no store query exactly when the month argument is missing or
rejected by the `%Y-%m` parse (four year digits denoting a year of at
least 0001, a dash, and a one- or two-digit month 1-12); every strict
`YYYY-MM` label with month 01-12 and year at least 0001 is accepted, but
so are single-digit months such as "2024-5", while the all-zero year
"0000-01" is rejected although it matches the strict pattern. -/
theorem C8_month_validation_amended :
    (∀ (st : Store) (uid : ℕ), view st uid [] = ⟨false, "Usage: /view <YYYY-MM>"⟩) ∧
    (∀ (st : Store) (uid : ℕ) (month : String) (rest : List String),
        parseStrptimeYm? month.toList = none →
        view st uid (month :: rest) = ⟨false, "Usage: /view <YYYY-MM>"⟩) ∧
    (∀ (st : Store) (uid : ℕ) (fs : List String) (ok : Bool),
        exportCmd st uid [] fs ok = ⟨false, none, fs, .usage⟩) ∧
    (∀ (st : Store) (uid : ℕ) (month : String) (rest : List String)
        (fs : List String) (ok : Bool),
        parseStrptimeYm? month.toList = none →
        exportCmd st uid (month :: rest) fs ok = ⟨false, none, fs, .usage⟩) ∧
    (∀ month : String, matchesYYYYMM month = true →
        1 ≤ digitsToNat (month.toList.take 4) →
        (parseStrptimeYm? month.toList).isSome = true) := by
  refine ⟨?_, ?_, ?_, ?_, matchesYYYYMM_strptime⟩
  · intro st uid
    rfl
  · intro st uid month rest hp
    have hp' : parseStrptimeYm? month.data = none := hp
    simp [view, hp']
  · intro st uid fs ok
    rfl
  · intro st uid month rest fs ok hp
    have hp' : parseStrptimeYm? month.data = none := hp
    simp [exportCmd, hp']

/-- C8 witness: "abc" and the year-zero label "0000-01" are rejected with
the usage reply and no query; "2024-12" passes the strict pattern with a
positive year and is accepted. -/
theorem C8_witness :
    view emptyStore 1 ["abc"] = ⟨false, "Usage: /view <YYYY-MM>"⟩ ∧
    view emptyStore 1 ["0000-01"] = ⟨false, "Usage: /view <YYYY-MM>"⟩ ∧
    matchesYYYYMM "2024-12" = true ∧
    (parseStrptimeYm? "2024-12".toList).isSome = true :=
  ⟨C8_month_validation_amended.2.1 emptyStore 1 "abc" [] (by decide),
   C8_month_validation_amended.2.1 emptyStore 1 "0000-01" [] (by decide),
   by decide,
   C8_month_validation_amended.2.2.2.2 "2024-12" (by decide) (by decide)⟩

/-- C9: a `/export` over a validated month with a non-empty result set
produces a table with one row per matching expense document, whose columns
are all stored fields except the internal `_id` identifier. -/
theorem C9_export_table (st : Store) (uid : ℕ) (month : String) (rest : List String)
    (fs : List String) (ok : Bool) (y m : ℕ) (s e : PyDateTime)
    (hv : parseStrptimeYm? month.toList = some (y, m))
    (hr : get_month_range month = some (s, e))
    (hne : expensesInRange st uid s e ≠ []) :
    ∃ t, (exportCmd st uid (month :: rest) fs ok).table = some t ∧
      t.length = (expensesInRange st uid s e).length ∧
      ∀ row ∈ t, row.map Prod.fst =
        ["uid", "username", "amount", "name", "category", "timestamp"] := by
  refine ⟨exportTable ((expensesInRange st uid s e).enum.map
    (fun p => expenseBson p.1 p.2)), ?_, ?_, ?_⟩
  · have hv' : parseStrptimeYm? month.data = some (y, m) := hv
    rcases hx : expensesInRange st uid s e with - | ⟨x0, xr⟩
    · exact absurd hx hne
    · cases ok <;> simp [exportCmd, hv', hr, hx, List.isEmpty_cons]
  · simp [exportTable, List.enum_length]
  · intro row hrow
    unfold exportTable at hrow
    rw [List.mem_map] at hrow
    obtain ⟨doc0, hdoc0, hfilter⟩ := hrow
    rw [List.mem_map] at hdoc0
    obtain ⟨p, hp, hbson⟩ := hdoc0
    rw [← hfilter, ← hbson]
    rfl

/-- C9 witness: exporting one January expense yields a one-row table whose
columns exclude `_id`. -/
theorem C9_witness :
    ∃ t, (exportCmd ⟨[], [], [⟨42, "u", .finite 5 0, "Lunch", "Food",
        ⟨2024, 1, 30, 12, 0, 0, 0⟩⟩]⟩ 42 ["2024-01"] [] true).table = some t ∧
      t.length = (expensesInRange ⟨[], [], [⟨42, "u", .finite 5 0, "Lunch", "Food",
        ⟨2024, 1, 30, 12, 0, 0, 0⟩⟩]⟩ 42 ⟨2024, 1, 1, 0, 0, 0, 0⟩
          ⟨2024, 1, 31, 0, 0, 0, 0⟩).length ∧
      ∀ row ∈ t, row.map Prod.fst =
        ["uid", "username", "amount", "name", "category", "timestamp"] :=
  C9_export_table ⟨[], [], [⟨42, "u", .finite 5 0, "Lunch", "Food",
      ⟨2024, 1, 30, 12, 0, 0, 0⟩⟩]⟩ 42 "2024-01" [] [] true 2024 1
    ⟨2024, 1, 1, 0, 0, 0, 0⟩ ⟨2024, 1, 31, 0, 0, 0, 0⟩
    (by decide) (by decide) (by decide)

/-- C10: `/setbudget` applies no sign, finiteness or range check: for every
argument Python `float` accepts — negative numbers, "inf", "nan" included —
the budget is upserted with the parsed value and the confirmation reply is
sent. -/
theorem C10_setbudget_no_checks (st : Store) (uid : ℕ) (un : Option String)
    (a : String) (rest : List String) (now : PyDateTime) (v : PyFloat)
    (hu : budgetUnique st.budgets) (hp : parseFloat? a.toList = some v) :
    (set_budget st uid un (a :: rest) now).1.budgets.filter
        (budgetKey uid (get_month_str now)) = [mkBudgetDoc uid un v now] ∧
    (set_budget st uid un (a :: rest) now).2 =
      "✅ Budget for " ++ get_month_str now ++ " set to " ++ format2 v := by
  have hp' : parseFloat? a.data = some v := hp
  have hop : opBudgetDoc? uid un (a :: rest) now = some (mkBudgetDoc uid un v now) := by
    simp [opBudgetDoc?, hp']
  constructor
  · rw [set_budget_budgets st uid un (a :: rest) now _ hop]
    exact filter_updateOneUpsert _ _ _ (by simp [budgetKey, mkBudgetDoc])
      (filter_key_len_le_one _ _ _ hu)
  · obtain ⟨us, bs, es⟩ := st
    unfold set_budget
    rw [hop]
    rfl

/-- C10 witness: "inf", "nan" and "-5" are all accepted and stored. -/
theorem C10_witness :
    ((set_budget emptyStore 7 none ["inf"] ⟨2024, 5, 1, 0, 0, 0, 0⟩).1.budgets.filter
        (budgetKey 7 (get_month_str ⟨2024, 5, 1, 0, 0, 0, 0⟩)) =
      [mkBudgetDoc 7 none PyFloat.inf ⟨2024, 5, 1, 0, 0, 0, 0⟩]) ∧
    ((set_budget emptyStore 7 none ["nan"] ⟨2024, 5, 1, 0, 0, 0, 0⟩).1.budgets.filter
        (budgetKey 7 (get_month_str ⟨2024, 5, 1, 0, 0, 0, 0⟩)) =
      [mkBudgetDoc 7 none PyFloat.nan ⟨2024, 5, 1, 0, 0, 0, 0⟩]) ∧
    ((set_budget emptyStore 7 none ["-5"] ⟨2024, 5, 1, 0, 0, 0, 0⟩).2 =
      "✅ Budget for " ++ get_month_str ⟨2024, 5, 1, 0, 0, 0, 0⟩ ++ " set to " ++
        format2 (.finite (-5) 0)) :=
  ⟨(C10_setbudget_no_checks emptyStore 7 none "inf" [] ⟨2024, 5, 1, 0, 0, 0, 0⟩
      PyFloat.inf List.Pairwise.nil (by decide)).1,
   (C10_setbudget_no_checks emptyStore 7 none "nan" [] ⟨2024, 5, 1, 0, 0, 0, 0⟩
      PyFloat.nan List.Pairwise.nil (by decide)).1,
   (C10_setbudget_no_checks emptyStore 7 none "-5" [] ⟨2024, 5, 1, 0, 0, 0, 0⟩
      (.finite (-5) 0) List.Pairwise.nil (by decide)).2⟩
